import Mathlib

/-!
Verification of the real-time obstacle-navigation core of `Backend/core.py`:
detection fusion (`simple_nms`, `custom_priority`), distance estimation
(`estimate_distance`, `estimate_distance_by_coverage`), detection annotation
(`get_detection_info`, `relative_position`, `format_label_for_speech`) and the
navigation decision engine described by the design document.

Modelling conventions: Python floats are rationals (`ℚ`), Python `None` is
`Option.none`, the detection dicts are structures, pixel frame sizes are `ℕ`
(the functions' `int` annotations; frames have non-negative sizes), and
Python's stable `sorted(..., reverse=True)` is a stable descending insertion
sort. Rational division is total (`q / 0 = 0`), matching the fact that the
translated code paths never divide by zero on their intended inputs.
-/

/-- Axis-aligned bounding box in pixel coordinates: the `[x1, y1, x2, y2]`
lists that `core.py` passes around. -/
structure Box where
  x1 : ℚ
  y1 : ℚ
  x2 : ℚ
  y2 : ℚ
deriving DecidableEq

/-- One raw detection record: the detection dicts flowing through `core.py`
(fields `label`, `source`, `bbox`, `conf`). -/
structure Detection where
  label : String
  source : String
  bbox : Box
  conf : ℚ
deriving DecidableEq

/-- Python's `str.lower()` restricted to the ASCII labels the code uses:
lower-case every character. -/
def lowerStr (s : String) : String :=
  String.mk (s.data.map Char.toLower)

/-- Line 7 of `core.py`: `FACE_LABELS`. -/
def FACE_LABELS : List String := ["face", "human face"]

/-- Lines 9-34 of `core.py`: `TYPICAL_HEIGHTS_M`. -/
def TYPICAL_HEIGHTS_M : List (String × ℚ) :=
  [("person", 1.7), ("chair", 0.9), ("bottle", 0.25), ("cup", 0.1),
   ("cell phone", 0.15), ("car", 1.5), ("truck", 2.0), ("bus", 3.0),
   ("cat", 0.25), ("dog", 0.5), ("table", 0.8), ("door", 2.0),
   ("door_open", 2.0), ("door_closed", 2.0), ("door_half_open", 2.0),
   ("stairs", 1.2), ("stairs_up", 1.2), ("stairs_down", 1.2),
   ("bench", 0.5), ("couch", 0.9), ("bed", 0.6), ("laptop", 0.3),
   ("tv", 0.6), ("refrigerator", 1.8)]

/-- Line 37 of `core.py`: `LARGE_OBJECTS`, the frame-filling classes that use
coverage-based distance. -/
def LARGE_OBJECTS : List String :=
  ["door", "door_open", "door_closed", "door_half_open", "stairs", "wall",
   "refrigerator"]

/-- Line 39 of `core.py`: `FOCAL_LENGTH = 500`. -/
def FOCAL_LENGTH : ℚ := 500

/-- Line 40 of `core.py`: `calibrated_focal_lengths = \x7b\x7d` (never written to by
the core, so modelled as the empty association list). -/
def calibrated_focal_lengths : List (String × ℚ) := []

/-- Lines 43-46 of `core.py`: `format_label_for_speech` replaces underscores
and hyphens by spaces. -/
def format_label_for_speech (label : String) : String :=
  (label.replace "_" " ").replace "-" " "

/-- Lines 49-55 of `core.py`: `relative_position` buckets the bbox center x
into thirds of the frame width. -/
def relative_position (cx : ℚ) (frame_w : ℕ) : String :=
  let third : ℚ := (frame_w : ℚ) / 3
  if cx < third then "left"
  else if cx > 2 * third then "right"
  else "center"

/-- Lines 111-130 of `core.py`: the descending coverage-to-distance step table
inside `_estimate_distance_by_coverage`. -/
def coverage_to_distance (max_coverage : ℚ) : ℚ :=
  if max_coverage ≥ 0.85 then 0.3
  else if max_coverage ≥ 0.70 then 0.5
  else if max_coverage ≥ 0.55 then 0.8
  else if max_coverage ≥ 0.45 then 1.0
  else if max_coverage ≥ 0.35 then 1.3
  else if max_coverage ≥ 0.25 then 1.8
  else if max_coverage ≥ 0.15 then 2.5
  else if max_coverage ≥ 0.10 then 3.5
  else 5.0

/-- Lines 88-134 of `core.py`: `_estimate_distance_by_coverage`. Width, height
and area coverages of the frame are computed and the maximum of the three is
mapped through the step table (the `label` argument is only used in log
output, so it is dropped here). -/
def estimate_distance_by_coverage (bbox : Box) (frame_width frame_height : ℕ) : ℚ :=
  let bbox_width := |bbox.x2 - bbox.x1|
  let bbox_height := |bbox.y2 - bbox.y1|
  let coverage := bbox_width * bbox_height / ((frame_width : ℚ) * (frame_height : ℚ))
  let height_coverage := bbox_height / (frame_height : ℚ)
  let width_coverage := bbox_width / (frame_width : ℚ)
  coverage_to_distance (max height_coverage (max width_coverage coverage))

/-- Lines 58-85 of `core.py`: `estimate_distance`. Absolute bbox height `≤ 0`
or a face label gives `None`; large objects use coverage; all others use the
height/focal model clamped to `[0.1, 15.0]`. The `try`/`except` around the
division cannot fire (the height was checked non-zero), so it is not modelled. -/
def estimate_distance (bbox : Box) (label : String) (frame_width frame_height : ℕ) : Option ℚ :=
  let bbox_height_px := |bbox.y2 - bbox.y1|
  if bbox_height_px ≤ 0 then none
  else
    let label_lower := lowerStr label
    if FACE_LABELS.contains label_lower then none
    else if LARGE_OBJECTS.contains label_lower then
      some (estimate_distance_by_coverage bbox frame_width frame_height)
    else
      let real_height_m := (TYPICAL_HEIGHTS_M.lookup label_lower).getD 0.8
      let focal := (calibrated_focal_lengths.lookup label_lower).getD FOCAL_LENGTH
      some (max 0.1 (min (real_height_m * focal / bbox_height_px) 15.0))

/-- The annotated detection record returned by `get_detection_info`
(lines 175-182 of `core.py`). -/
structure DetectionInfo where
  label : String
  speech_label : String
  conf : ℚ
  distance : Option ℚ
  position : String
  bbox : Box
deriving DecidableEq

/-- Lines 137-182 of `core.py`: `get_detection_info`. The bbox distance is
blended with the externally supplied MiDaS distance: for large objects
`0.7·bbox + 0.3·midas` when both exist, otherwise the bbox value; for other
labels the weighting flips at a 2.0 m MiDaS reading, a lone value is used
as-is, and no value at all leaves the distance absent. -/
def get_detection_info (det : Detection) (frame_width frame_height : ℕ)
    (midas_distance : Option ℚ) : DetectionInfo :=
  let cx := (det.bbox.x1 + det.bbox.x2) / 2
  let bbox_distance := estimate_distance det.bbox det.label frame_width frame_height
  let label_lower := lowerStr det.label
  let distance : Option ℚ :=
    if LARGE_OBJECTS.contains label_lower then
      match bbox_distance, midas_distance with
      | some b, some m => some (b * 0.7 + m * 0.3)
      | _, _ => bbox_distance
    else
      match midas_distance, bbox_distance with
      | some m, some b => if m < 2.0 then some (m * 0.7 + b * 0.3) else some (m * 0.3 + b * 0.7)
      | some m, none => some m
      | none, _ => bbox_distance
  { label := det.label
    speech_label := format_label_for_speech det.label
    conf := det.conf
    distance := distance
    position := relative_position cx frame_width
    bbox := det.bbox }

/-- Lines 193-209 of `core.py`: `iou`, intersection over union of two boxes. -/
def iou (boxA boxB : Box) : ℚ :=
  let xA := max boxA.x1 boxB.x1
  let yA := max boxA.y1 boxB.y1
  let xB := min boxA.x2 boxB.x2
  let yB := min boxA.y2 boxB.y2
  let interW := max 0 (xB - xA)
  let interH := max 0 (yB - yA)
  let interArea := interW * interH
  if interArea = 0 then 0
  else
    let boxAArea := (boxA.x2 - boxA.x1) * (boxA.y2 - boxA.y1)
    let boxBArea := (boxB.x2 - boxB.x1) * (boxB.y2 - boxB.y1)
    interArea / (boxAArea + boxBArea - interArea)

/-- Stable descending insertion step: a new element goes in front of the first
entry of equal or lower confidence. Earlier list elements are inserted last by
`sortDesc`, so among equal confidences earlier elements stay first — exactly
the stability guarantee of Python's `sorted(..., reverse=True)`. -/
def insertDesc (d : Detection) : List Detection → List Detection
  | [] => [d]
  | x :: xs => if x.conf ≤ d.conf then d :: x :: xs else x :: insertDesc d xs

/-- Stable sort by confidence descending: line 216 of `core.py`,
`sorted(detections, key=lambda x: x.get("conf", 0), reverse=True)`. -/
def sortDesc : List Detection → List Detection
  | [] => []
  | x :: xs => insertDesc x (sortDesc xs)

/-- Lines 219-227 of `core.py`: the greedy NMS loop. The highest-confidence
remaining detection is kept and every remaining detection overlapping it with
IoU not below the threshold is discarded. -/
def nmsLoop (iou_thresh : ℚ) : List Detection → List Detection
  | [] => []
  | best :: rest =>
      best :: nmsLoop iou_thresh (rest.filter fun d => decide (iou best.bbox d.bbox < iou_thresh))
termination_by l => l.length
decreasing_by simp only [List.length_cons]; exact Nat.lt_succ_of_le (List.length_filter_le _ _)

/-- Lines 212-229 of `core.py`: `simple_nms` sorts by confidence descending and
runs the greedy suppression loop (the early return on an empty input is the
same as running the loop on the empty list). -/
def simple_nms (detections : List Detection) (iou_thresh : ℚ) : List Detection :=
  nmsLoop iou_thresh (sortDesc detections)

/-- Line 236 of `core.py`: the specialized door/stairs labels, matched exactly
and case-sensitively. -/
def custom_labels : List String := ["door_closed", "door_open", "door_half_open", "stairs"]

/-- The label test `d.get("label") in custom_labels` from lines 238-239 of
`core.py`. -/
def isCustom (d : Detection) : Bool := custom_labels.contains d.label

/-- Lines 246-250 of `core.py`: whether a general detection overlaps some
specialized detection with IoU above 0.45. -/
def overlapped (custom_dets : List Detection) (yd : Detection) : Bool :=
  custom_dets.any fun cd => decide (iou yd.bbox cd.bbox > 0.45)

/-- Lines 232-254 of `core.py`: `custom_priority`. Specialized detections are
split out and kept; general detections overlapping one of them with IoU above
0.45 are dropped; the output is specialized detections followed by the
surviving general ones (when no specialized detection is present the input
passes through unchanged). -/
def custom_priority (detections : List Detection) : List Detection :=
  let custom_dets := detections.filter isCustom
  let yolo_dets := detections.filter fun d => !isCustom d
  if custom_dets.isEmpty then detections
  else custom_dets ++ yolo_dets.filter fun yd => !overlapped custom_dets yd

/-- Detection fusion as the design document's section 4.2 composes it:
Step A cross-source NMS at IoU threshold 0.5, then Step B priority override. -/
def fuse (detections : List Detection) : List Detection :=
  custom_priority (simple_nms detections 0.5)

/-- The surviving general detections of `custom_priority`: general detections
not overlapping any specialized detection with IoU above 0.45 (an abbreviation
for the second half of `custom_priority`'s output, used to state its
decomposition). -/
def yoloKeep (z : List Detection) : List Detection :=
  (z.filter fun d => !isCustom d).filter fun yd => !overlapped (z.filter isCustom) yd

/-- Confidence-descending order, the order `simple_nms` keeps detections in. -/
def SortedDesc (l : List Detection) : Prop :=
  l.Pairwise fun a b => b.conf ≤ a.conf

/-- Pixel area of a bounding box. -/
def bboxArea (b : Box) : ℚ := |b.x2 - b.x1| * |b.y2 - b.y1|

/-- Modelled from the spec: the Navigation Decision Engine of section 4.4 is
not part of the sources (only the fusion/annotation core is), so its
detection prefilter is taken from the spec's words: "Discard detections below
a confidence threshold and those with bbox area below a minimum pixel-area
floor". -/
def eligible (conf_threshold area_floor : ℚ) (d : DetectionInfo) : Bool :=
  decide (conf_threshold ≤ d.conf) && decide (area_floor ≤ bboxArea d.bbox)

/-- Minimum of a list of rationals, `none` on the empty list. -/
def minDist : List ℚ → Option ℚ
  | [] => none
  | q :: qs =>
      match minDist qs with
      | none => some q
      | some m => some (min q m)

/-- Modelled from the spec: "Identify the closest obstacle per position bucket
(left/center/right) by minimum distance_m among detections in that bucket
(entries with absent distance participate by label presence only, not in
distance comparisons)". -/
def bucketMin (dets : List DetectionInfo) (pos : String) : Option ℚ :=
  minDist ((dets.filter fun d => d.position == pos).filterMap fun d => d.distance)

/-- Modelled from the spec: step 3 of the decision policy, "command = veer away
from the occupied side (e.g., obstacle on left → turn right), choosing the
side with the nearer obstacle if both sides are occupied", falling through to
"proceed" when neither side has an obstacle within the caution threshold. -/
def sideDecision (leftMin rightMin : Option ℚ) (caution_threshold : ℚ) : String :=
  match leftMin, rightMin with
  | some l, some r =>
      if l < caution_threshold then
        if r < caution_threshold then (if l ≤ r then "turn right" else "turn left")
        else "turn right"
      else if r < caution_threshold then "turn left"
      else "proceed"
  | some l, none => if l < caution_threshold then "turn right" else "proceed"
  | none, some r => if r < caution_threshold then "turn left" else "proceed"
  | none, none => "proceed"

/-- Modelled from the spec: the Navigation Decision Engine of section 4.4,
which is absent from the sources. Ineligible detections are discarded, the
closest obstacle of each bucket is found, and the ordered policy runs with
first match winning: center obstacle closer than the stop threshold → "stop";
else center obstacle closer than the caution threshold → "slow"; else a side
obstacle within the caution threshold → veer away from the (nearer) occupied
side; else "proceed" — in particular "proceed" on an empty list. -/
def decideNav (stop_threshold caution_threshold conf_threshold area_floor : ℚ)
    (dets : List DetectionInfo) : String :=
  let elig := dets.filter (eligible conf_threshold area_floor)
  match bucketMin elig "center" with
  | some c =>
      if c < stop_threshold then "stop"
      else if c < caution_threshold then "slow"
      else sideDecision (bucketMin elig "left") (bucketMin elig "right") caution_threshold
  | none => sideDecision (bucketMin elig "left") (bucketMin elig "right") caution_threshold

/-! ## Distance estimator properties -/

theorem coverage_to_distance_range (c : ℚ) :
    0.1 ≤ coverage_to_distance c ∧ coverage_to_distance c ≤ 15 := by
  unfold coverage_to_distance
  split_ifs <;> norm_num

theorem ctd_val_85 (c : ℚ) (h : 0.85 ≤ c) : coverage_to_distance c = 0.3 := by
  unfold coverage_to_distance
  rw [if_pos h]

theorem ctd_val_70 (c : ℚ) (hu : c < 0.85) (hl : 0.70 ≤ c) : coverage_to_distance c = 0.5 := by
  unfold coverage_to_distance
  rw [if_neg (by linarith : ¬0.85 ≤ c), if_pos hl]

theorem ctd_val_55 (c : ℚ) (hu : c < 0.70) (hl : 0.55 ≤ c) : coverage_to_distance c = 0.8 := by
  unfold coverage_to_distance
  rw [if_neg (by linarith : ¬0.85 ≤ c), if_neg (by linarith : ¬0.70 ≤ c), if_pos hl]

theorem ctd_val_45 (c : ℚ) (hu : c < 0.55) (hl : 0.45 ≤ c) : coverage_to_distance c = 1.0 := by
  unfold coverage_to_distance
  rw [if_neg (by linarith : ¬0.85 ≤ c), if_neg (by linarith : ¬0.70 ≤ c),
    if_neg (by linarith : ¬0.55 ≤ c), if_pos hl]

theorem ctd_val_35 (c : ℚ) (hu : c < 0.45) (hl : 0.35 ≤ c) : coverage_to_distance c = 1.3 := by
  unfold coverage_to_distance
  rw [if_neg (by linarith : ¬0.85 ≤ c), if_neg (by linarith : ¬0.70 ≤ c),
    if_neg (by linarith : ¬0.55 ≤ c), if_neg (by linarith : ¬0.45 ≤ c), if_pos hl]

theorem ctd_val_25 (c : ℚ) (hu : c < 0.35) (hl : 0.25 ≤ c) : coverage_to_distance c = 1.8 := by
  unfold coverage_to_distance
  rw [if_neg (by linarith : ¬0.85 ≤ c), if_neg (by linarith : ¬0.70 ≤ c),
    if_neg (by linarith : ¬0.55 ≤ c), if_neg (by linarith : ¬0.45 ≤ c),
    if_neg (by linarith : ¬0.35 ≤ c), if_pos hl]

theorem ctd_val_15 (c : ℚ) (hu : c < 0.25) (hl : 0.15 ≤ c) : coverage_to_distance c = 2.5 := by
  unfold coverage_to_distance
  rw [if_neg (by linarith : ¬0.85 ≤ c), if_neg (by linarith : ¬0.70 ≤ c),
    if_neg (by linarith : ¬0.55 ≤ c), if_neg (by linarith : ¬0.45 ≤ c),
    if_neg (by linarith : ¬0.35 ≤ c), if_neg (by linarith : ¬0.25 ≤ c), if_pos hl]

theorem ctd_val_10 (c : ℚ) (hu : c < 0.15) (hl : 0.10 ≤ c) : coverage_to_distance c = 3.5 := by
  unfold coverage_to_distance
  rw [if_neg (by linarith : ¬0.85 ≤ c), if_neg (by linarith : ¬0.70 ≤ c),
    if_neg (by linarith : ¬0.55 ≤ c), if_neg (by linarith : ¬0.45 ≤ c),
    if_neg (by linarith : ¬0.35 ≤ c), if_neg (by linarith : ¬0.25 ≤ c),
    if_neg (by linarith : ¬0.15 ≤ c), if_pos hl]

theorem ctd_val_lt10 (c : ℚ) (hu : c < 0.10) : coverage_to_distance c = 5.0 := by
  unfold coverage_to_distance
  rw [if_neg (by linarith : ¬0.85 ≤ c), if_neg (by linarith : ¬0.70 ≤ c),
    if_neg (by linarith : ¬0.55 ≤ c), if_neg (by linarith : ¬0.45 ≤ c),
    if_neg (by linarith : ¬0.35 ≤ c), if_neg (by linarith : ¬0.25 ≤ c),
    if_neg (by linarith : ¬0.15 ≤ c), if_neg (by linarith : ¬0.10 ≤ c)]

theorem ctd_le_85 (c : ℚ) (h : 0.85 ≤ c) : coverage_to_distance c ≤ 0.3 :=
  le_of_eq (ctd_val_85 c h)

theorem ctd_le_70 (c : ℚ) (h : 0.70 ≤ c) : coverage_to_distance c ≤ 0.5 := by
  rcases le_or_lt 0.85 c with h' | h'
  · rw [ctd_val_85 c h']; norm_num
  · rw [ctd_val_70 c h' h]

theorem ctd_le_55 (c : ℚ) (h : 0.55 ≤ c) : coverage_to_distance c ≤ 0.8 := by
  rcases le_or_lt 0.70 c with h' | h'
  · exact (ctd_le_70 c h').trans (by norm_num)
  · rw [ctd_val_55 c h' h]

theorem ctd_le_45 (c : ℚ) (h : 0.45 ≤ c) : coverage_to_distance c ≤ 1.0 := by
  rcases le_or_lt 0.55 c with h' | h'
  · exact (ctd_le_55 c h').trans (by norm_num)
  · rw [ctd_val_45 c h' h]

theorem ctd_le_35 (c : ℚ) (h : 0.35 ≤ c) : coverage_to_distance c ≤ 1.3 := by
  rcases le_or_lt 0.45 c with h' | h'
  · exact (ctd_le_45 c h').trans (by norm_num)
  · rw [ctd_val_35 c h' h]

theorem ctd_le_25 (c : ℚ) (h : 0.25 ≤ c) : coverage_to_distance c ≤ 1.8 := by
  rcases le_or_lt 0.35 c with h' | h'
  · exact (ctd_le_35 c h').trans (by norm_num)
  · rw [ctd_val_25 c h' h]

theorem ctd_le_15 (c : ℚ) (h : 0.15 ≤ c) : coverage_to_distance c ≤ 2.5 := by
  rcases le_or_lt 0.25 c with h' | h'
  · exact (ctd_le_25 c h').trans (by norm_num)
  · rw [ctd_val_15 c h' h]

theorem ctd_le_10 (c : ℚ) (h : 0.10 ≤ c) : coverage_to_distance c ≤ 3.5 := by
  rcases le_or_lt 0.15 c with h' | h'
  · exact (ctd_le_15 c h').trans (by norm_num)
  · rw [ctd_val_10 c h' h]

theorem ctd_le_top (c : ℚ) : coverage_to_distance c ≤ 5.0 := by
  rcases le_or_lt 0.10 c with h' | h'
  · exact (ctd_le_10 c h').trans (by norm_num)
  · rw [ctd_val_lt10 c h']

theorem coverage_to_distance_antitone (a b : ℚ) (hab : a ≤ b) :
    coverage_to_distance b ≤ coverage_to_distance a := by
  rcases le_or_lt 0.85 a with h | h
  · rw [ctd_val_85 a h]; exact ctd_le_85 b (h.trans hab)
  rcases le_or_lt 0.70 a with h2 | h2
  · rw [ctd_val_70 a h h2]; exact ctd_le_70 b (h2.trans hab)
  rcases le_or_lt 0.55 a with h3 | h3
  · rw [ctd_val_55 a h2 h3]; exact ctd_le_55 b (h3.trans hab)
  rcases le_or_lt 0.45 a with h4 | h4
  · rw [ctd_val_45 a h3 h4]; exact ctd_le_45 b (h4.trans hab)
  rcases le_or_lt 0.35 a with h5 | h5
  · rw [ctd_val_35 a h4 h5]; exact ctd_le_35 b (h5.trans hab)
  rcases le_or_lt 0.25 a with h6 | h6
  · rw [ctd_val_25 a h5 h6]; exact ctd_le_25 b (h6.trans hab)
  rcases le_or_lt 0.15 a with h7 | h7
  · rw [ctd_val_15 a h6 h7]; exact ctd_le_15 b (h7.trans hab)
  rcases le_or_lt 0.10 a with h8 | h8
  · rw [ctd_val_10 a h7 h8]; exact ctd_le_10 b (h8.trans hab)
  · rw [ctd_val_lt10 a h8]; exact ctd_le_top b

theorem estimate_distance_range (bbox : Box) (label : String) (fw fh : ℕ) (q : ℚ)
    (h : estimate_distance bbox label fw fh = some q) : 0.1 ≤ q ∧ q ≤ 15 := by
  simp only [estimate_distance] at h
  split_ifs at h
  · obtain rfl := Option.some.inj h
    simp only [estimate_distance_by_coverage]
    exact coverage_to_distance_range _
  · obtain rfl := Option.some.inj h
    refine ⟨le_max_left _ _, max_le (by norm_num) ?_⟩
    calc min _ (15.0 : ℚ) ≤ 15.0 := min_le_right _ _
    _ ≤ 15 := by norm_num

/-! ## Claims about distance estimation and position bucketing -/

/-- C9: for every frame width `w` and bbox center `cx`, the position bucket is
"left" iff `cx < w/3`, "right" iff `cx > 2w/3`, and "center" otherwise; for
`w = 480`: x=50 is left, x=240 center, x=450 right, and the boundary values
x=160 and x=320 are both center. -/
theorem C9_relative_position :
    (∀ (cx : ℚ) (w : ℕ),
      (relative_position cx w = "left" ↔ cx < (w : ℚ) / 3) ∧
      (relative_position cx w = "right" ↔ 2 * ((w : ℚ) / 3) < cx) ∧
      (relative_position cx w = "center" ↔ ((w : ℚ) / 3 ≤ cx ∧ cx ≤ 2 * ((w : ℚ) / 3)))) ∧
    relative_position 50 480 = "left" ∧ relative_position 240 480 = "center" ∧
    relative_position 450 480 = "right" ∧ relative_position 160 480 = "center" ∧
    relative_position 320 480 = "center" := by
  constructor
  · intro cx w
    have hw : (0 : ℚ) ≤ (w : ℚ) := Nat.cast_nonneg w
    simp only [relative_position]
    split_ifs with h1 h2
    · exact ⟨iff_of_true rfl h1,
        iff_of_false (by decide) (fun hc => by linarith),
        iff_of_false (by decide) (fun hc => by linarith [hc.1])⟩
    · exact ⟨iff_of_false (by decide) h1,
        iff_of_true rfl h2,
        iff_of_false (by decide) (fun hc => by linarith [hc.2])⟩
    · exact ⟨iff_of_false (by decide) h1,
        iff_of_false (by decide) h2,
        iff_of_true rfl ⟨not_lt.mp h1, not_lt.mp h2⟩⟩
  · refine ⟨?_, ?_, ?_, ?_, ?_⟩ <;> norm_num [relative_position]

/-- C4 counterexample: the bbox `(0, 10, 10, 0)` has height `y2 - y1 = -10 < 0`,
yet `estimate_distance` returns a distance (the absolute value of the height is
used), contradicting the claim that every zero-or-negative-height bbox gives an
absent distance. -/
theorem C4_counterexample :
    (Box.mk 0 10 10 0).y2 - (Box.mk 0 10 10 0).y1 < 0 ∧
    estimate_distance (Box.mk 0 10 10 0) "person" 480 480 = some 15 := by
  constructor
  · norm_num
  · have habs : |(0 : ℚ) - 10| = 10 := by
      rw [abs_sub_comm, sub_zero, abs_of_nonneg (by norm_num : (0 : ℚ) ≤ 10)]
    simp only [estimate_distance, habs]
    rw [if_neg (by norm_num : ¬(10 : ℚ) ≤ 0)]
    rw [if_neg (by decide : ¬FACE_LABELS.contains (lowerStr "person") = true)]
    rw [if_neg (by decide : ¬LARGE_OBJECTS.contains (lowerStr "person") = true)]
    rw [show TYPICAL_HEIGHTS_M.lookup (lowerStr "person") = some 1.7 from rfl]
    rw [show calibrated_focal_lengths.lookup (lowerStr "person") = (none : Option ℚ) from rfl]
    norm_num [FOCAL_LENGTH]

/-- C4 (amended): for every bbox whose height `y2 - y1` is exactly zero, and
for every label and frame size, `estimate_distance` returns absent, and absent
is distinct from every present distance (in particular from 0 meters); a
negative `y2 - y1` is instead folded through the absolute value, so it can
yield a present distance. -/
theorem C4_zero_height (bbox : Box) (label : String) (fw fh : ℕ)
    (h : bbox.y2 - bbox.y1 = 0) :
    estimate_distance bbox label fw fh = none ∧ ∀ q : ℚ, (none : Option ℚ) ≠ some q := by
  refine ⟨?_, fun q => by simp⟩
  simp only [estimate_distance, h, abs_zero]
  rw [if_pos le_rfl]

theorem C4_zero_height_witness :
    estimate_distance (Box.mk 0 0 10 0) "person" 480 480 = none ∧
    ∀ q : ℚ, (none : Option ℚ) ≠ some q :=
  C4_zero_height (Box.mk 0 0 10 0) "person" 480 480 (by simp)

/-- C5 counterexample: at `max_coverage = 0.50` the step table yields `1.0` m,
not the `0.8` m the claim states (a bbox covering half the frame width and
half the frame height realizes exactly this coverage). -/
theorem C5_counterexample :
    coverage_to_distance 0.50 = 1.0 ∧
    estimate_distance_by_coverage (Box.mk 0 0 50 50) 100 100 = 1.0 ∧
    ¬(1.0 : ℚ) = 0.8 := by
  refine ⟨ctd_val_45 _ (by norm_num) (by norm_num), ?_, by norm_num⟩
  have habs : |(50 : ℚ) - 0| = 50 := by
    rw [sub_zero, abs_of_nonneg (by norm_num : (0 : ℚ) ≤ 50)]
  have harg : max ((50 : ℚ) / ((100 : ℕ) : ℚ))
      (max ((50 : ℚ) / ((100 : ℕ) : ℚ))
        ((50 : ℚ) * 50 / (((100 : ℕ) : ℚ) * ((100 : ℕ) : ℚ)))) = 0.5 := by
    norm_num
  simp only [estimate_distance_by_coverage, habs, harg]
  exact ctd_val_45 _ (by norm_num) (by norm_num)

/-- C5 (amended): for every bbox and frame size the coverage-based distance is
the step table applied to the maximum of height, width and area coverage; the
table value is monotonically non-increasing in the coverage and matches the
table exactly at each breakpoint; in particular coverage 0.90 yields 0.3 m,
coverage 0.50 yields 1.0 m (not 0.8 m), and coverage 0.05 yields 5.0 m; and
every large/frame-filling label with positive-height bbox routes
`estimate_distance` through this coverage model. -/
theorem C5_coverage_table :
    (∀ a b : ℚ, a ≤ b → coverage_to_distance b ≤ coverage_to_distance a) ∧
    (∀ (bbox : Box) (fw fh : ℕ),
      estimate_distance_by_coverage bbox fw fh =
        coverage_to_distance (max (|bbox.y2 - bbox.y1| / (fh : ℚ))
          (max (|bbox.x2 - bbox.x1| / (fw : ℚ))
            (|bbox.x2 - bbox.x1| * |bbox.y2 - bbox.y1| / ((fw : ℚ) * (fh : ℚ)))))) ∧
    coverage_to_distance 0.85 = 0.3 ∧ coverage_to_distance 0.70 = 0.5 ∧
    coverage_to_distance 0.55 = 0.8 ∧ coverage_to_distance 0.45 = 1.0 ∧
    coverage_to_distance 0.35 = 1.3 ∧ coverage_to_distance 0.25 = 1.8 ∧
    coverage_to_distance 0.15 = 2.5 ∧ coverage_to_distance 0.10 = 3.5 ∧
    coverage_to_distance 0.90 = 0.3 ∧ coverage_to_distance 0.50 = 1.0 ∧
    coverage_to_distance 0.05 = 5.0 ∧
    (∀ (label : String) (bbox : Box) (fw fh : ℕ),
      LARGE_OBJECTS.contains (lowerStr label) = true → ¬|bbox.y2 - bbox.y1| ≤ 0 →
      estimate_distance bbox label fw fh = some (estimate_distance_by_coverage bbox fw fh)) := by
  refine ⟨coverage_to_distance_antitone, fun bbox fw fh => rfl,
    ctd_val_85 _ (by norm_num), ctd_val_70 _ (by norm_num) (by norm_num),
    ctd_val_55 _ (by norm_num) (by norm_num), ctd_val_45 _ (by norm_num) (by norm_num),
    ctd_val_35 _ (by norm_num) (by norm_num), ctd_val_25 _ (by norm_num) (by norm_num),
    ctd_val_15 _ (by norm_num) (by norm_num), ctd_val_10 _ (by norm_num) (by norm_num),
    ctd_val_85 _ (by norm_num), ctd_val_45 _ (by norm_num) (by norm_num),
    ctd_val_lt10 _ (by norm_num), ?_⟩
  intro label bbox fw fh hL hh
  have hf : FACE_LABELS.contains (lowerStr label) = false := by
    have hm : lowerStr label ∈ LARGE_OBJECTS := by simpa using hL
    simp only [LARGE_OBJECTS, List.mem_cons, List.not_mem_nil, or_false] at hm
    rcases hm with h | h | h | h | h | h | h <;> rw [h] <;> rfl
  simp only [estimate_distance]
  rw [if_neg hh, hf, hL]
  simp

theorem C5_coverage_table_witness :
    (0 : ℚ) ≤ 1 ∧ coverage_to_distance 1 ≤ coverage_to_distance 0 :=
  ⟨zero_le_one, C5_coverage_table.1 0 1 zero_le_one⟩

/-- C3 counterexample: with an external MiDaS distance of 100 m supplied, the
annotated distance of a "person" detection is 35.95 m, far outside the claimed
interval `[0.1, 15.0]` — the clamp applies only to the bbox-based estimate,
not to the MiDaS blend. -/
theorem get_detection_info_distance (det : Detection) (fw fh : ℕ) (md : Option ℚ) :
    (get_detection_info det fw fh md).distance =
      if LARGE_OBJECTS.contains (lowerStr det.label) then
        match estimate_distance det.bbox det.label fw fh, md with
        | some b, some m => some (b * 0.7 + m * 0.3)
        | _, _ => estimate_distance det.bbox det.label fw fh
      else
        match md, estimate_distance det.bbox det.label fw fh with
        | some m, some b => if m < 2.0 then some (m * 0.7 + b * 0.3) else some (m * 0.3 + b * 0.7)
        | some m, none => some m
        | none, _ => estimate_distance det.bbox det.label fw fh := rfl

theorem C3_counterexample :
    (get_detection_info (Detection.mk "person" "primary" (Box.mk 0 0 100 100) 0.5) 480 480
      (some 100)).distance = some 35.95 ∧ ¬((35.95 : ℚ) ≤ 15) := by
  refine ⟨?_, by norm_num⟩
  have habs : |(100 : ℚ) - 0| = 100 := by
    rw [sub_zero, abs_of_nonneg (by norm_num : (0 : ℚ) ≤ 100)]
  have hb : estimate_distance (Box.mk 0 0 100 100) "person" 480 480 = some 8.5 := by
    simp only [estimate_distance, habs]
    rw [if_neg (by norm_num : ¬(100 : ℚ) ≤ 0)]
    rw [if_neg (by decide : ¬FACE_LABELS.contains (lowerStr "person") = true)]
    rw [if_neg (by decide : ¬LARGE_OBJECTS.contains (lowerStr "person") = true)]
    rw [show TYPICAL_HEIGHTS_M.lookup (lowerStr "person") = some 1.7 from rfl]
    rw [show calibrated_focal_lengths.lookup (lowerStr "person") = (none : Option ℚ) from rfl]
    norm_num [FOCAL_LENGTH]
  rw [get_detection_info_distance]
  rw [show lowerStr (Detection.mk "person" "primary" (Box.mk 0 0 100 100) 0.5).label =
      "person" from rfl]
  rw [if_neg (by decide : ¬LARGE_OBJECTS.contains "person" = true)]
  rw [show estimate_distance (Detection.mk "person" "primary" (Box.mk 0 0 100 100) 0.5).bbox
      (Detection.mk "person" "primary" (Box.mk 0 0 100 100) 0.5).label 480 480 =
      estimate_distance (Box.mk 0 0 100 100) "person" 480 480 from rfl, hb]
  show (if (100 : ℚ) < 2.0 then some ((100 : ℚ) * 0.7 + 8.5 * 0.3)
    else some ((100 : ℚ) * 0.3 + 8.5 * 0.7)) = some 35.95
  rw [if_neg (by norm_num : ¬(100 : ℚ) < 2.0)]
  norm_num

/-- C3 (amended): when no external MiDaS distance is supplied, the distance
field of every annotated detection is either absent or a number in the
interval `[0.1, 15.0]` (with a MiDaS value supplied the blend is unclamped and
can leave the interval). -/
theorem C3_distance_range (det : Detection) (fw fh : ℕ) :
    (get_detection_info det fw fh none).distance = none ∨
    ∃ q, (get_detection_info det fw fh none).distance = some q ∧ 0.1 ≤ q ∧ q ≤ 15 := by
  rcases hb : estimate_distance det.bbox det.label fw fh with _ | q
  · left
    rw [get_detection_info_distance, hb]
    split_ifs <;> rfl
  · right
    refine ⟨q, ?_, (estimate_distance_range det.bbox det.label fw fh q hb).1,
      (estimate_distance_range det.bbox det.label fw fh q hb).2⟩
    rw [get_detection_info_distance, hb]
    split_ifs <;> rfl

/-! ## Sorting and fusion machinery -/

theorem insertDesc_cons_of_le (d x : Detection) (xs : List Detection) (hc : x.conf ≤ d.conf) :
    insertDesc d (x :: xs) = d :: x :: xs := by
  simp only [insertDesc]
  rw [if_pos hc]

theorem insertDesc_cons_of_gt (d x : Detection) (xs : List Detection) (hc : ¬x.conf ≤ d.conf) :
    insertDesc d (x :: xs) = x :: insertDesc d xs := by
  simp only [insertDesc]
  rw [if_neg hc]

theorem insertDesc_perm (d : Detection) (l : List Detection) :
    (insertDesc d l).Perm (d :: l) := by
  induction l with
  | nil => simp [insertDesc]
  | cons x xs ih =>
      by_cases hc : x.conf ≤ d.conf
      · rw [insertDesc_cons_of_le d x xs hc]
      · rw [insertDesc_cons_of_gt d x xs hc]
        exact (ih.cons x).trans (List.Perm.swap d x xs)

theorem sortDesc_perm (l : List Detection) : (sortDesc l).Perm l := by
  induction l with
  | nil => simp [sortDesc]
  | cons x xs ih =>
      exact (insertDesc_perm x (sortDesc xs)).trans (ih.cons x)

theorem insertDesc_eq_cons (d : Detection) (l : List Detection)
    (h : ∀ e ∈ l, e.conf ≤ d.conf) : insertDesc d l = d :: l := by
  cases l with
  | nil => rfl
  | cons x xs => exact insertDesc_cons_of_le d x xs (h x (List.mem_cons_self x xs))

theorem insertDesc_pairwise (d : Detection) (l : List Detection)
    (h : l.Pairwise fun a b => b.conf ≤ a.conf) :
    (insertDesc d l).Pairwise fun a b => b.conf ≤ a.conf := by
  induction l with
  | nil => simp [insertDesc]
  | cons x xs ih =>
      obtain ⟨hx, hxs⟩ := List.pairwise_cons.mp h
      by_cases hc : x.conf ≤ d.conf
      · rw [insertDesc_cons_of_le d x xs hc]
        refine List.pairwise_cons.mpr ⟨?_, h⟩
        intro e he
        rcases List.mem_cons.mp he with rfl | he
        · exact hc
        · exact (hx e he).trans hc
      · rw [insertDesc_cons_of_gt d x xs hc]
        refine List.pairwise_cons.mpr ⟨?_, ih hxs⟩
        intro e he
        rcases List.mem_cons.mp ((insertDesc_perm d xs).mem_iff.mp he) with rfl | he
        · exact le_of_not_le hc
        · exact hx e he

theorem sortDesc_pairwise (l : List Detection) :
    (sortDesc l).Pairwise fun a b => b.conf ≤ a.conf := by
  induction l with
  | nil => simp [sortDesc]
  | cons x xs ih => exact insertDesc_pairwise x (sortDesc xs) ih

theorem sortDesc_eq_self (l : List Detection)
    (h : l.Pairwise fun a b => b.conf ≤ a.conf) : sortDesc l = l := by
  induction l with
  | nil => rfl
  | cons x xs ih =>
      obtain ⟨hx, hxs⟩ := List.pairwise_cons.mp h
      show insertDesc x (sortDesc xs) = x :: xs
      rw [ih hxs]
      exact insertDesc_eq_cons x xs hx

theorem filter_insertDesc (p : Detection → Bool) (d : Detection) :
    ∀ l : List Detection, (l.Pairwise fun a b => b.conf ≤ a.conf) →
      (insertDesc d l).filter p =
        if p d then insertDesc d (l.filter p) else l.filter p := by
  intro l
  induction l with
  | nil =>
      intro _
      cases hd : p d
      · rw [if_neg (by simp)]
        simp [insertDesc, List.filter, hd]
      · rw [if_pos rfl]
        simp [insertDesc, List.filter, hd]
  | cons x xs ih =>
      intro h
      obtain ⟨hx, hxs⟩ := List.pairwise_cons.mp h
      by_cases hc : x.conf ≤ d.conf
      · rw [insertDesc_cons_of_le d x xs hc]
        cases hd : p d
        · rw [if_neg (by simp)]
          rw [List.filter_cons_of_neg (by simp [hd])]
        · rw [if_pos rfl]
          cases hpx : p x
          · rw [List.filter_cons_of_pos hd, List.filter_cons_of_neg (by simp [hpx])]
            rw [insertDesc_eq_cons d (xs.filter p)
              (fun e he => le_trans (hx e (List.mem_of_mem_filter he)) hc)]
          · rw [List.filter_cons_of_pos hd, List.filter_cons_of_pos hpx,
              insertDesc_cons_of_le d x (xs.filter p) hc]
      · rw [insertDesc_cons_of_gt d x xs hc]
        cases hpx : p x
        · rw [List.filter_cons_of_neg (by simp [hpx]),
            List.filter_cons_of_neg (by simp [hpx]), ih hxs]
        · rw [List.filter_cons_of_pos hpx, List.filter_cons_of_pos hpx, ih hxs]
          cases hd : p d
          · rw [if_neg (by simp), if_neg (by simp)]
          · rw [if_pos rfl, if_pos rfl, insertDesc_cons_of_gt d x (xs.filter p) hc]

theorem filter_sortDesc (p : Detection → Bool) (l : List Detection) :
    (sortDesc l).filter p = sortDesc (l.filter p) := by
  induction l with
  | nil => rfl
  | cons x xs ih =>
      show (insertDesc x (sortDesc xs)).filter p = sortDesc ((x :: xs).filter p)
      rw [filter_insertDesc p x (sortDesc xs) (sortDesc_pairwise xs)]
      cases hpx : p x
      · rw [if_neg (by simp), List.filter_cons_of_neg (by simp [hpx]), ih]
      · rw [if_pos rfl, List.filter_cons_of_pos hpx, ih]
        rfl

theorem nmsLoop_subset (t : ℚ) : ∀ l : List Detection, ∀ d ∈ nmsLoop t l, d ∈ l := by
  intro l
  induction l using nmsLoop.induct t with
  | case1 => intro d hd; simp [nmsLoop] at hd
  | case2 best rest ih =>
      intro d hd
      rw [nmsLoop] at hd
      rcases List.mem_cons.mp hd with rfl | hd
      · exact List.mem_cons_self _ _
      · exact List.mem_cons_of_mem _ (List.mem_of_mem_filter (ih d hd))

theorem nmsLoop_pairwise_iou (t : ℚ) :
    ∀ l : List Detection, (nmsLoop t l).Pairwise fun a b => iou a.bbox b.bbox < t := by
  intro l
  induction l using nmsLoop.induct t with
  | case1 => simp [nmsLoop]
  | case2 best rest ih =>
      rw [nmsLoop]
      refine List.pairwise_cons.mpr ⟨?_, ih⟩
      intro e he
      have hm := nmsLoop_subset t _ e he
      exact of_decide_eq_true (List.mem_filter.mp hm).2

theorem nmsLoop_pairwise_conf (t : ℚ) :
    ∀ l : List Detection, (l.Pairwise fun a b => b.conf ≤ a.conf) →
      (nmsLoop t l).Pairwise fun a b => b.conf ≤ a.conf := by
  intro l
  induction l using nmsLoop.induct t with
  | case1 => intro _; simp [nmsLoop]
  | case2 best rest ih =>
      intro h
      obtain ⟨hb, hrest⟩ := List.pairwise_cons.mp h
      rw [nmsLoop]
      refine List.pairwise_cons.mpr ⟨?_, ih (hrest.sublist (List.filter_sublist rest))⟩
      intro e he
      exact hb e (List.mem_of_mem_filter (nmsLoop_subset t _ e he))

theorem nmsLoop_eq_self (t : ℚ) :
    ∀ l : List Detection, (l.Pairwise fun a b => iou a.bbox b.bbox < t) → nmsLoop t l = l := by
  intro l
  induction l using nmsLoop.induct t with
  | case1 => intro _; simp [nmsLoop]
  | case2 best rest ih =>
      intro h
      obtain ⟨hb, hrest⟩ := List.pairwise_cons.mp h
      have hf : rest.filter (fun d => decide (iou best.bbox d.bbox < t)) = rest :=
        List.filter_eq_self.mpr fun d hd => decide_eq_true (hb d hd)
      rw [hf] at ih
      rw [nmsLoop, hf, ih hrest]

theorem iou_symm (a b : Box) : iou a b = iou b a := by
  simp only [iou, max_comm b.x1 a.x1, max_comm b.y1 a.y1, min_comm b.x2 a.x2,
    min_comm b.y2 a.y2,
    add_comm ((b.x2 - b.x1) * (b.y2 - b.y1)) ((a.x2 - a.x1) * (a.y2 - a.y1))]

theorem filter_or_perm (p q : Detection → Bool) (hdisj : ∀ a, p a = true → q a = false) :
    ∀ l : List Detection, (l.filter p ++ l.filter q).Perm (l.filter fun a => p a || q a) := by
  intro l
  induction l with
  | nil => simp
  | cons a l ih =>
      cases hp : p a
      · cases hq : q a
        · rw [List.filter_cons_of_neg (by simp [hp]), List.filter_cons_of_neg (by simp [hq]),
            List.filter_cons_of_neg (by simp [hp, hq])]
          exact ih
        · rw [List.filter_cons_of_neg (by simp [hp]), List.filter_cons_of_pos hq,
            List.filter_cons_of_pos (by simp [hp, hq])]
          exact List.perm_middle.trans (ih.cons a)
      · rw [List.filter_cons_of_pos hp, List.filter_cons_of_neg (by simp [hdisj a hp]),
          List.filter_cons_of_pos (by simp [hp]), List.cons_append]
        exact ih.cons a

theorem overlapped_nil (yd : Detection) : overlapped [] yd = false := rfl

theorem custom_priority_eq (l : List Detection) :
    custom_priority l =
      l.filter isCustom ++
        (l.filter fun d => !isCustom d).filter fun yd => !overlapped (l.filter isCustom) yd := by
  simp only [custom_priority]
  by_cases h : (l.filter isCustom).isEmpty
  · rw [if_pos h]
    have h0 : l.filter isCustom = [] := by
      rwa [List.isEmpty_iff] at h
    rw [h0, List.nil_append]
    have hall : ∀ d ∈ l, (!isCustom d) = true := by
      intro d hd
      have := List.filter_eq_nil_iff.mp h0 d hd
      simp only [Bool.not_eq_true'] at this ⊢
      simpa using this
    rw [List.filter_eq_self.mpr hall]
    exact (List.filter_eq_self.mpr fun d _ => by simp [overlapped_nil]).symm
  · rw [if_neg h]

theorem filter_filter' (p q : Detection → Bool) (l : List Detection) :
    (l.filter p).filter q = l.filter fun a => p a && q a := by
  induction l with
  | nil => rfl
  | cons a l ih =>
      cases hp : p a <;> cases hq : q a <;>
        simp [List.filter_cons, hp, hq, ih]

theorem custom_priority_eq' (l : List Detection) :
    custom_priority l = l.filter isCustom ++ yoloKeep l :=
  custom_priority_eq l

theorem mem_yoloKeep_not_custom (z : List Detection) (a : Detection)
    (ha : a ∈ yoloKeep z) : isCustom a = false := by
  have h1 : a ∈ z.filter fun d => !isCustom d := List.mem_of_mem_filter ha
  have h2 := (List.mem_filter.mp h1).2
  simpa using h2

theorem yoloKeep_sublist (z : List Detection) : (yoloKeep z).Sublist z :=
  (List.filter_sublist _).trans (List.filter_sublist _)

theorem filter_custom_append (z : List Detection) :
    ((z.filter isCustom) ++ yoloKeep z).filter isCustom = z.filter isCustom := by
  rw [List.filter_append]
  have e1 : (z.filter isCustom).filter isCustom = z.filter isCustom :=
    List.filter_eq_self.mpr fun a ha => (List.mem_filter.mp ha).2
  have e2 : (yoloKeep z).filter isCustom = [] :=
    List.filter_eq_nil_iff.mpr fun a ha => by simp [mem_yoloKeep_not_custom z a ha]
  rw [e1, e2, List.append_nil]

theorem filter_yolo_append (z : List Detection) :
    ((z.filter isCustom) ++ yoloKeep z).filter (fun d => !isCustom d) = yoloKeep z := by
  rw [List.filter_append]
  have e1 : (z.filter isCustom).filter (fun d => !isCustom d) = [] :=
    List.filter_eq_nil_iff.mpr fun a ha => by simp [(List.mem_filter.mp ha).2]
  have e2 : (yoloKeep z).filter (fun d => !isCustom d) = yoloKeep z :=
    List.filter_eq_self.mpr fun a ha => by simp [mem_yoloKeep_not_custom z a ha]
  rw [e1, e2, List.nil_append]

theorem yoloKeep_filter_F (z : List Detection) :
    (yoloKeep z).filter (fun yd => !overlapped (z.filter isCustom) yd) = yoloKeep z :=
  List.filter_eq_self.mpr fun _a ha => (List.mem_filter.mp ha).2

theorem iou_lt_symm {t : ℚ} {a b : Detection} (h : iou a.bbox b.bbox < t) :
    iou b.bbox a.bbox < t := by
  rw [iou_symm b.bbox a.bbox]
  exact h

theorem custom_append_pairwise_iou (z : List Detection)
    (hzp : z.Pairwise fun a b => iou a.bbox b.bbox < 0.5) :
    ((z.filter isCustom) ++ yoloKeep z).Pairwise fun a b => iou a.bbox b.bbox < 0.5 := by
  have hBf : yoloKeep z =
      z.filter fun a => (!isCustom a) && (!overlapped (z.filter isCustom) a) :=
    filter_filter' _ _ z
  have hdisj : ∀ a, isCustom a = true →
      ((!isCustom a) && (!overlapped (z.filter isCustom) a)) = false :=
    fun a ha => by simp [ha]
  have hperm : ((z.filter isCustom) ++ yoloKeep z).Perm
      (z.filter fun a => isCustom a || ((!isCustom a) && (!overlapped (z.filter isCustom) a))) := by
    rw [hBf]
    exact filter_or_perm _ _ hdisj z
  exact (hperm.pairwise_iff fun {a b} h => iou_lt_symm h).mpr
    (hzp.sublist (List.filter_sublist z))

theorem fuse_fixed (z : List Detection)
    (hzc : z.Pairwise fun a b => b.conf ≤ a.conf)
    (hzp : z.Pairwise fun a b => iou a.bbox b.bbox < 0.5) :
    fuse (custom_priority z) = custom_priority z := by
  rw [custom_priority_eq']
  have hA_conf : (z.filter isCustom).Pairwise fun a b => b.conf ≤ a.conf :=
    hzc.sublist (List.filter_sublist z)
  have hY_conf : (yoloKeep z).Pairwise fun a b => b.conf ≤ a.conf :=
    hzc.sublist (yoloKeep_sublist z)
  have hABp := custom_append_pairwise_iou z hzp
  have hsortp : (sortDesc (z.filter isCustom ++ yoloKeep z)).Pairwise
      fun a b => iou a.bbox b.bbox < 0.5 :=
    ((sortDesc_perm _).pairwise_iff fun {a b} h => iou_lt_symm h).mpr hABp
  have hnms : nmsLoop 0.5 (sortDesc (z.filter isCustom ++ yoloKeep z)) =
      sortDesc (z.filter isCustom ++ yoloKeep z) :=
    nmsLoop_eq_self 0.5 _ hsortp
  show custom_priority (nmsLoop 0.5 (sortDesc (z.filter isCustom ++ yoloKeep z))) = _
  rw [hnms, custom_priority_eq]
  have h1 : (sortDesc (z.filter isCustom ++ yoloKeep z)).filter isCustom =
      z.filter isCustom := by
    rw [filter_sortDesc, filter_custom_append, sortDesc_eq_self _ hA_conf]
  have h2 : (sortDesc (z.filter isCustom ++ yoloKeep z)).filter (fun d => !isCustom d) =
      yoloKeep z := by
    rw [filter_sortDesc, filter_yolo_append, sortDesc_eq_self _ hY_conf]
  rw [h1, h2, yoloKeep_filter_F]

/-! ## Claims about fusion -/

/-- C7: fusion (cross-source NMS at IoU threshold 0.5 followed by the priority
override) is idempotent: applying fusion to its own output returns that output
unchanged. -/
theorem C7_fuse_idempotent (dets : List Detection) : fuse (fuse dets) = fuse dets := by
  have h : fuse dets = custom_priority (nmsLoop 0.5 (sortDesc dets)) := rfl
  rw [h]
  exact fuse_fixed _ (nmsLoop_pairwise_conf 0.5 _ (sortDesc_pairwise dets))
    (nmsLoop_pairwise_iou 0.5 _)

/-- C1 (amended): the priority-override step (Step B, `custom_priority`) never
removes a specialized-label detection — every detection of the input bearing a
door/stairs label appears in its output; the cross-source NMS of Step A,
however, can remove a specialized detection overlapped by a higher-confidence
general detection, so fusion as a whole does not retain every specialized
detection. -/
theorem C1_priority_keeps_specialized (dets : List Detection) (d : Detection)
    (hd : d ∈ dets) (hc : isCustom d = true) : d ∈ custom_priority dets := by
  rw [custom_priority_eq']
  exact List.mem_append_left _ (List.mem_filter.mpr ⟨hd, hc⟩)

theorem C1_priority_keeps_specialized_witness :
    Detection.mk "stairs" "custom" (Box.mk 0 0 100 100) 0.6 ∈
      custom_priority [Detection.mk "stairs" "custom" (Box.mk 0 0 100 100) 0.6] :=
  C1_priority_keeps_specialized _ _ (List.mem_singleton_self _) (by decide)

theorem zero_height_none (bbox : Box) (label : String) (fw fh : ℕ)
    (h : bbox.y2 - bbox.y1 = 0) : estimate_distance bbox label fw fh = none := by
  simp only [estimate_distance, h, abs_zero]
  rw [if_pos le_rfl]

theorem custom_priority_no_custom (l : List Detection) (h : l.filter isCustom = []) :
    custom_priority l = l := by
  simp only [custom_priority, h]
  rfl

/-- C6 counterexample: a large-label ("door") detection with a degenerate bbox
has no bbox-based distance; although a MiDaS distance of 1 m is supplied, the
annotator returns an absent distance instead of using the lone available
estimate. -/
theorem C6_counterexample :
    (get_detection_info (Detection.mk "door" "custom" (Box.mk 0 0 10 0) 0.5) 480 480
      (some 1)).distance = none ∧
    ((some (1 : ℚ)).isSome = true) := by
  refine ⟨?_, rfl⟩
  have hb : estimate_distance (Box.mk 0 0 10 0) "door" 480 480 = none :=
    zero_height_none _ _ _ _ (by simp)
  rw [get_detection_info_distance]
  rw [show lowerStr (Detection.mk "door" "custom" (Box.mk 0 0 10 0) 0.5).label =
      "door" from rfl]
  rw [if_pos (by decide : LARGE_OBJECTS.contains "door" = true)]
  rw [show estimate_distance (Detection.mk "door" "custom" (Box.mk 0 0 10 0) 0.5).bbox
      (Detection.mk "door" "custom" (Box.mk 0 0 10 0) 0.5).label 480 480 =
      estimate_distance (Box.mk 0 0 10 0) "door" 480 480 from rfl, hb]

/-- C6 (amended): with both estimates available the annotator returns
`0.7·bbox + 0.3·midas` for large/frame-filling labels, and for other labels
`0.7·midas + 0.3·bbox` when `midas < 2.0` m and `0.3·midas + 0.7·bbox`
otherwise; a lone MiDaS estimate is used only for non-large labels — for a
large label with absent bbox distance the distance is absent even when MiDaS
is supplied; a lone bbox estimate is always used; with neither, distance is
absent. -/
theorem C6_blend_policy (det : Detection) (fw fh : ℕ) :
    (∀ b m : ℚ, LARGE_OBJECTS.contains (lowerStr det.label) = true →
      estimate_distance det.bbox det.label fw fh = some b →
      (get_detection_info det fw fh (some m)).distance = some (b * 0.7 + m * 0.3)) ∧
    (∀ m : ℚ, LARGE_OBJECTS.contains (lowerStr det.label) = true →
      estimate_distance det.bbox det.label fw fh = none →
      (get_detection_info det fw fh (some m)).distance = none) ∧
    (LARGE_OBJECTS.contains (lowerStr det.label) = true →
      (get_detection_info det fw fh none).distance =
        estimate_distance det.bbox det.label fw fh) ∧
    (∀ b m : ℚ, LARGE_OBJECTS.contains (lowerStr det.label) = false →
      estimate_distance det.bbox det.label fw fh = some b → m < 2.0 →
      (get_detection_info det fw fh (some m)).distance = some (m * 0.7 + b * 0.3)) ∧
    (∀ b m : ℚ, LARGE_OBJECTS.contains (lowerStr det.label) = false →
      estimate_distance det.bbox det.label fw fh = some b → ¬m < 2.0 →
      (get_detection_info det fw fh (some m)).distance = some (m * 0.3 + b * 0.7)) ∧
    (∀ m : ℚ, LARGE_OBJECTS.contains (lowerStr det.label) = false →
      estimate_distance det.bbox det.label fw fh = none →
      (get_detection_info det fw fh (some m)).distance = some m) ∧
    (LARGE_OBJECTS.contains (lowerStr det.label) = false →
      (get_detection_info det fw fh none).distance =
        estimate_distance det.bbox det.label fw fh) := by
  refine ⟨?_, ?_, ?_, ?_, ?_, ?_, ?_⟩
  · intro b m hL hb
    rw [get_detection_info_distance, if_pos hL, hb]
  · intro m hL hb
    rw [get_detection_info_distance, if_pos hL, hb]
  · intro hL
    rcases hE : estimate_distance det.bbox det.label fw fh with _ | b <;>
      rw [get_detection_info_distance, if_pos hL, hE]
  · intro b m hL hb hm
    rw [get_detection_info_distance, if_neg (by rw [hL]; simp), hb]
    show (if m < 2.0 then some (m * 0.7 + b * 0.3) else some (m * 0.3 + b * 0.7)) =
      some (m * 0.7 + b * 0.3)
    rw [if_pos hm]
  · intro b m hL hb hm
    rw [get_detection_info_distance, if_neg (by rw [hL]; simp), hb]
    show (if m < 2.0 then some (m * 0.7 + b * 0.3) else some (m * 0.3 + b * 0.7)) =
      some (m * 0.3 + b * 0.7)
    rw [if_neg hm]
  · intro m hL hb
    rw [get_detection_info_distance, if_neg (by rw [hL]; simp), hb]
  · intro hL
    rw [get_detection_info_distance, if_neg (by rw [hL]; simp)]

theorem C6_blend_policy_witness :
    (get_detection_info (Detection.mk "person" "primary" (Box.mk 0 0 10 0) 1) 480 480
      (some 1)).distance = some 1 :=
  (C6_blend_policy (Detection.mk "person" "primary" (Box.mk 0 0 10 0) 1) 480 480).2.2.2.2.2.1
    1 (by decide) (zero_height_none _ _ _ _ (by simp))

/-- C1 counterexample: a specialized "stairs" detection sharing its bbox with a
higher-confidence general detection is removed by Step A's NMS (IoU 1 ≥ 0.5),
so fusion does not retain it — contradicting the claim that fusion never
removes a specialized-label detection. -/
theorem C1_counterexample :
    isCustom (Detection.mk "stairs" "custom" (Box.mk 0 0 100 100) 0.6) = true ∧
    fuse [Detection.mk "person" "primary" (Box.mk 0 0 100 100) 0.9,
      Detection.mk "stairs" "custom" (Box.mk 0 0 100 100) 0.6] =
      [Detection.mk "person" "primary" (Box.mk 0 0 100 100) 0.9] ∧
    Detection.mk "stairs" "custom" (Box.mk 0 0 100 100) 0.6 ∉
      fuse [Detection.mk "person" "primary" (Box.mk 0 0 100 100) 0.9,
        Detection.mk "stairs" "custom" (Box.mk 0 0 100 100) 0.6] := by
  have hiou : iou (Box.mk 0 0 100 100) (Box.mk 0 0 100 100) = 1 := by
    simp only [iou]
    norm_num
  have hs : sortDesc [Detection.mk "person" "primary" (Box.mk 0 0 100 100) 0.9,
      Detection.mk "stairs" "custom" (Box.mk 0 0 100 100) 0.6] =
      [Detection.mk "person" "primary" (Box.mk 0 0 100 100) 0.9,
        Detection.mk "stairs" "custom" (Box.mk 0 0 100 100) 0.6] := by
    show insertDesc _ [_] = _
    rw [insertDesc_cons_of_le _ _ _ (by norm_num)]
  have hfilt : [Detection.mk "stairs" "custom" (Box.mk 0 0 100 100) 0.6].filter
      (fun d => decide (iou (Detection.mk "person" "primary" (Box.mk 0 0 100 100) 0.9).bbox
        d.bbox < 0.5)) = [] := by
    rw [List.filter_cons_of_neg (by simp only [hiou, decide_eq_true_eq]; norm_num)]
    rfl
  have hfuse : fuse [Detection.mk "person" "primary" (Box.mk 0 0 100 100) 0.9,
      Detection.mk "stairs" "custom" (Box.mk 0 0 100 100) 0.6] =
      [Detection.mk "person" "primary" (Box.mk 0 0 100 100) 0.9] := by
    show custom_priority (nmsLoop 0.5 (sortDesc _)) = _
    rw [hs]
    rw [nmsLoop, hfilt]
    rw [show nmsLoop (0.5 : ℚ) [] = [] from by simp [nmsLoop]]
    exact custom_priority_no_custom _ (by rw [List.filter_cons_of_neg (by decide)]; rfl)
  refine ⟨by decide, hfuse, ?_⟩
  rw [hfuse]
  simp

theorem custom_priority_single_custom (d : Detection) (h : isCustom d = true) :
    custom_priority [d] = [d] := by
  rw [custom_priority_eq']
  simp only [yoloKeep]
  have h1 : [d].filter isCustom = [d] := by
    rw [List.filter_cons_of_pos h]
    rfl
  have h2 : [d].filter (fun x => !isCustom x) = ([] : List Detection) := by
    rw [List.filter_cons_of_neg (by simp [h])]
    rfl
  rw [h1, h2]
  rfl

/-- C8: the priority-override step removes a general-detector detection iff
its IoU with at least one specialized detection exceeds 0.45 (membership in
`custom_priority`'s output characterized for every general detection of the
input); and fusing the two overlapping detections of the worked scenario —
"door_closed" (custom, conf 0.9) and "door" (primary, conf 0.6), IoU above
0.45 — yields only the "door_closed" detection. -/
theorem C8_priority_removal_iff :
    (∀ (dets : List Detection) (d : Detection), d ∈ dets → isCustom d = false →
      (d ∈ custom_priority dets ↔
        ∀ cd ∈ dets, isCustom cd = true → iou d.bbox cd.bbox ≤ 0.45)) ∧
    fuse [Detection.mk "door_closed" "custom" (Box.mk 10 10 200 200) 0.9,
      Detection.mk "door" "primary" (Box.mk 15 15 195 195) 0.6] =
      [Detection.mk "door_closed" "custom" (Box.mk 10 10 200 200) 0.9] ∧
    0.45 < iou (Box.mk 10 10 200 200) (Box.mk 15 15 195 195) := by
  have hiou : iou (Box.mk 10 10 200 200) (Box.mk 15 15 195 195) = 324 / 361 := by
    simp only [iou]
    norm_num
  refine ⟨?_, ?_, by rw [hiou]; norm_num⟩
  · intro dets d hd hnc
    rw [custom_priority_eq']
    rw [List.mem_append]
    constructor
    · rintro (hA | hB)
      · exact absurd (List.mem_filter.mp hA).2 (by rw [hnc]; simp)
      · intro cd hcd hccd
        have h2 := (List.mem_filter.mp hB).2
        have h3 : overlapped (dets.filter isCustom) d = false := by simpa using h2
        have h4 := List.any_eq_false.mp h3 cd (List.mem_filter.mpr ⟨hcd, hccd⟩)
        have h5 : ¬(0.45 < iou d.bbox cd.bbox) := fun hgt => h4 (decide_eq_true hgt)
        exact not_lt.mp h5
    · intro hall
      refine Or.inr (List.mem_filter.mpr ⟨List.mem_filter.mpr ⟨hd, by rw [hnc]; simp⟩, ?_⟩)
      have h3 : overlapped (dets.filter isCustom) d = false := by
        refine List.any_eq_false.mpr ?_
        intro cd hcd
        have hcd' := List.mem_filter.mp hcd
        have h6 := hall cd hcd'.1 hcd'.2
        simp only [decide_eq_true_eq]
        exact not_lt.mpr h6
      simp [h3]
  · have hs : sortDesc [Detection.mk "door_closed" "custom" (Box.mk 10 10 200 200) 0.9,
        Detection.mk "door" "primary" (Box.mk 15 15 195 195) 0.6] =
        [Detection.mk "door_closed" "custom" (Box.mk 10 10 200 200) 0.9,
          Detection.mk "door" "primary" (Box.mk 15 15 195 195) 0.6] := by
      show insertDesc _ [_] = _
      rw [insertDesc_cons_of_le _ _ _ (by norm_num)]
    have hfilt : [Detection.mk "door" "primary" (Box.mk 15 15 195 195) 0.6].filter
        (fun d => decide (iou
          (Detection.mk "door_closed" "custom" (Box.mk 10 10 200 200) 0.9).bbox
          d.bbox < 0.5)) = [] := by
      rw [List.filter_cons_of_neg (by simp only [hiou, decide_eq_true_eq]; norm_num)]
      rfl
    show custom_priority (nmsLoop 0.5 (sortDesc _)) = _
    rw [hs, nmsLoop, hfilt]
    rw [show nmsLoop (0.5 : ℚ) [] = [] from by simp [nmsLoop]]
    exact custom_priority_single_custom _ (by decide)

theorem C8_priority_removal_iff_witness :
    Detection.mk "person" "primary" (Box.mk 0 0 100 100) 0.9 ∈
      custom_priority [Detection.mk "person" "primary" (Box.mk 0 0 100 100) 0.9] ↔
    ∀ cd ∈ [Detection.mk "person" "primary" (Box.mk 0 0 100 100) 0.9],
      isCustom cd = true →
        iou (Detection.mk "person" "primary" (Box.mk 0 0 100 100) 0.9).bbox cd.bbox ≤ 0.45 :=
  C8_priority_removal_iff.1 _ _ (List.mem_singleton_self _) (by decide)

/-- C10: the fused output is all specialized detections (in surviving
confidence-descending order) followed by the surviving general detections,
where "specialized" means the label is exactly, case-sensitively, one of
"door_closed", "door_open", "door_half_open", "stairs" — detections labeled
"door", "stairs_up" or "Door_Closed" count as general, and a "stairs_up"
detection overlapping a specialized "stairs" detection with IoU above 0.45 is
dropped by fusion rather than protected. -/
theorem C10_fused_structure :
    (∀ dets : List Detection,
      fuse dets = (simple_nms dets 0.5).filter isCustom ++ yoloKeep (simple_nms dets 0.5) ∧
      ((simple_nms dets 0.5).filter isCustom).Pairwise fun a b => b.conf ≤ a.conf) ∧
    (∀ d : Detection, isCustom d = true ↔
      (d.label = "door_closed" ∨ d.label = "door_open" ∨ d.label = "door_half_open" ∨
        d.label = "stairs")) ∧
    isCustom (Detection.mk "door" "primary" (Box.mk 0 0 100 100) 0.9) = false ∧
    isCustom (Detection.mk "stairs_up" "custom" (Box.mk 0 0 100 100) 0.9) = false ∧
    isCustom (Detection.mk "Door_Closed" "custom" (Box.mk 0 0 100 100) 0.9) = false ∧
    fuse [Detection.mk "stairs" "custom" (Box.mk 0 0 100 100) 0.9,
      Detection.mk "stairs_up" "primary" (Box.mk 0 0 100 210) 0.8] =
      [Detection.mk "stairs" "custom" (Box.mk 0 0 100 100) 0.9] := by
  refine ⟨?_, ?_, by decide, by decide, by decide, ?_⟩
  · intro dets
    constructor
    · exact custom_priority_eq' (simple_nms dets 0.5)
    · exact (nmsLoop_pairwise_conf 0.5 _ (sortDesc_pairwise dets)).sublist
        (List.filter_sublist _)
  · intro d
    simp [isCustom, custom_labels]
  · have hiou : iou (Box.mk 0 0 100 100) (Box.mk 0 0 100 210) = 10 / 21 := by
      simp only [iou]
      norm_num
    have hiou2 : iou (Box.mk 0 0 100 210) (Box.mk 0 0 100 100) = 10 / 21 := by
      rw [iou_symm, hiou]
    have hs : sortDesc [Detection.mk "stairs" "custom" (Box.mk 0 0 100 100) 0.9,
        Detection.mk "stairs_up" "primary" (Box.mk 0 0 100 210) 0.8] =
        [Detection.mk "stairs" "custom" (Box.mk 0 0 100 100) 0.9,
          Detection.mk "stairs_up" "primary" (Box.mk 0 0 100 210) 0.8] := by
      show insertDesc _ [_] = _
      rw [insertDesc_cons_of_le _ _ _ (by norm_num)]
    have hfilt : [Detection.mk "stairs_up" "primary" (Box.mk 0 0 100 210) 0.8].filter
        (fun d => decide (iou
          (Detection.mk "stairs" "custom" (Box.mk 0 0 100 100) 0.9).bbox
          d.bbox < 0.5)) =
        [Detection.mk "stairs_up" "primary" (Box.mk 0 0 100 210) 0.8] := by
      rw [List.filter_cons_of_pos (by simp only [hiou, decide_eq_true_eq]; norm_num)]
      rfl
    have hovl : overlapped [Detection.mk "stairs" "custom" (Box.mk 0 0 100 100) 0.9]
        (Detection.mk "stairs_up" "primary" (Box.mk 0 0 100 210) 0.8) = true := by
      simp only [overlapped, List.any_cons, List.any_nil, Bool.or_false]
      rw [show iou (Detection.mk "stairs_up" "primary" (Box.mk 0 0 100 210) 0.8).bbox
        (Detection.mk "stairs" "custom" (Box.mk 0 0 100 100) 0.9).bbox =
        iou (Box.mk 0 0 100 210) (Box.mk 0 0 100 100) from rfl, hiou2]
      simp only [decide_eq_true_eq]
      norm_num
    show custom_priority (nmsLoop 0.5 (sortDesc _)) = _
    rw [hs, nmsLoop, hfilt, nmsLoop]
    rw [show ([] : List Detection).filter
      (fun d => decide (iou
        (Detection.mk "stairs_up" "primary" (Box.mk 0 0 100 210) 0.8).bbox
        d.bbox < 0.5)) = [] from rfl]
    rw [show nmsLoop (0.5 : ℚ) [] = [] from by simp [nmsLoop]]
    rw [custom_priority_eq']
    simp only [yoloKeep]
    have h1 : [Detection.mk "stairs" "custom" (Box.mk 0 0 100 100) 0.9,
        Detection.mk "stairs_up" "primary" (Box.mk 0 0 100 210) 0.8].filter isCustom =
        [Detection.mk "stairs" "custom" (Box.mk 0 0 100 100) 0.9] := by
      rw [List.filter_cons_of_pos (by decide), List.filter_cons_of_neg (by decide)]
      rfl
    have h2 : [Detection.mk "stairs" "custom" (Box.mk 0 0 100 100) 0.9,
        Detection.mk "stairs_up" "primary" (Box.mk 0 0 100 210) 0.8].filter
        (fun d => !isCustom d) =
        [Detection.mk "stairs_up" "primary" (Box.mk 0 0 100 210) 0.8] := by
      rw [List.filter_cons_of_neg (by decide), List.filter_cons_of_pos (by decide)]
      rfl
    rw [h1, h2]
    rw [List.filter_cons_of_neg (by simp [hovl])]
    rfl

/-! ## Navigation decision engine (modelled from the spec) -/

theorem minDist_mem : ∀ (qs : List ℚ) (m : ℚ), minDist qs = some m → m ∈ qs := by
  intro qs
  induction qs with
  | nil => intro m h; simp [minDist] at h
  | cons a as ih =>
      intro m h
      simp only [minDist] at h
      cases hs : minDist as with
      | none =>
          rw [hs] at h
          obtain rfl := Option.some.inj h
          exact List.mem_cons_self _ _
      | some mm =>
          rw [hs] at h
          obtain rfl := Option.some.inj h
          rcases le_total a mm with hle | hle
          · rw [min_eq_left hle]
            exact List.mem_cons_self _ _
          · rw [min_eq_right hle]
            exact List.mem_cons_of_mem _ (ih mm hs)

theorem minDist_le : ∀ (qs : List ℚ) (q : ℚ), q ∈ qs → ∃ m, minDist qs = some m ∧ m ≤ q := by
  intro qs
  induction qs with
  | nil => intro q h; simp at h
  | cons a as ih =>
      intro q hq
      rcases List.mem_cons.mp hq with rfl | hq
      · cases hs : minDist as with
        | none => exact ⟨q, by simp [minDist, hs], le_refl q⟩
        | some mm => exact ⟨min q mm, by simp [minDist, hs], min_le_left _ _⟩
      · obtain ⟨mm, hm', hle⟩ := ih q hq
        cases hs : minDist as with
        | none =>
            rw [hs] at hm'
            exact absurd hm' (by simp)
        | some m2 =>
            rw [hs] at hm'
            obtain rfl := Option.some.inj hm'
            exact ⟨min a m2, by simp [minDist, hs], le_trans (min_le_right _ _) hle⟩

theorem bucketMin_some_of_mem (dets : List DetectionInfo) (pos : String)
    (d : DetectionInfo) (q : ℚ) (hd : d ∈ dets) (hpos : d.position = pos)
    (hq : d.distance = some q) : ∃ m, bucketMin dets pos = some m ∧ m ≤ q := by
  apply minDist_le
  exact List.mem_filterMap.mpr ⟨d, List.mem_filter.mpr ⟨hd, by simp [hpos]⟩, hq⟩

theorem bucketMin_mem (dets : List DetectionInfo) (pos : String) (m : ℚ)
    (h : bucketMin dets pos = some m) :
    ∃ d ∈ dets, d.position = pos ∧ d.distance = some m := by
  obtain ⟨d, hd, hdist⟩ := List.mem_filterMap.mp (minDist_mem _ _ h)
  have hd' := List.mem_filter.mp hd
  exact ⟨d, hd'.1, by simpa using hd'.2, hdist⟩

theorem decideNav_some (stopT cautionT confT areaF : ℚ) (dets : List DetectionInfo) (m : ℚ)
    (h : bucketMin (dets.filter (eligible confT areaF)) "center" = some m) :
    decideNav stopT cautionT confT areaF dets =
      if m < stopT then "stop"
      else if m < cautionT then "slow"
      else sideDecision (bucketMin (dets.filter (eligible confT areaF)) "left")
        (bucketMin (dets.filter (eligible confT areaF)) "right") cautionT := by
  simp only [decideNav]
  rw [h]

theorem decideNav_none (stopT cautionT confT areaF : ℚ) (dets : List DetectionInfo)
    (h : bucketMin (dets.filter (eligible confT areaF)) "center" = none) :
    decideNav stopT cautionT confT areaF dets =
      sideDecision (bucketMin (dets.filter (eligible confT areaF)) "left")
        (bucketMin (dets.filter (eligible confT areaF)) "right") cautionT := by
  simp only [decideNav]
  rw [h]

/-- C2: the navigation decision engine (modelled from the spec, which is the
only description of it — the decision code is not among the sources) maps the
annotated detection list to one command by an ordered policy, first match
winning: an eligible center-bucket obstacle closer than the stop threshold
yields "stop"; else a center obstacle within the caution threshold yields
"slow"; else the side rule runs: a left/right obstacle within the caution
threshold yields a veer away from the occupied side (obstacle on left yields
"turn right"), the side with the nearer obstacle winning when both are
occupied; else — in particular on an empty list — "proceed". The worked
examples hold: one center detection at 0.4 m with stop threshold 0.5 m gives
"stop"; the same detection in the left bucket gives "turn right". -/
theorem C2_decision_policy :
    (∀ (stopT cautionT confT areaF : ℚ) (dets : List DetectionInfo)
      (d : DetectionInfo) (q : ℚ),
      d ∈ dets → eligible confT areaF d = true → d.position = "center" →
      d.distance = some q → q < stopT →
      decideNav stopT cautionT confT areaF dets = "stop") ∧
    (∀ (stopT cautionT confT areaF : ℚ) (dets : List DetectionInfo)
      (d : DetectionInfo) (q : ℚ),
      (∀ d' ∈ dets, eligible confT areaF d' = true → d'.position = "center" →
        ∀ q', d'.distance = some q' → ¬q' < stopT) →
      d ∈ dets → eligible confT areaF d = true → d.position = "center" →
      d.distance = some q → q < cautionT →
      decideNav stopT cautionT confT areaF dets = "slow") ∧
    (∀ (stopT cautionT confT areaF : ℚ) (dets : List DetectionInfo),
      stopT ≤ cautionT →
      (∀ d' ∈ dets, eligible confT areaF d' = true → d'.position = "center" →
        ∀ q', d'.distance = some q' → ¬q' < cautionT) →
      decideNav stopT cautionT confT areaF dets =
        sideDecision (bucketMin (dets.filter (eligible confT areaF)) "left")
          (bucketMin (dets.filter (eligible confT areaF)) "right") cautionT) ∧
    (∀ l r c : ℚ, l < c → r < c → l ≤ r → sideDecision (some l) (some r) c = "turn right") ∧
    (∀ l r c : ℚ, l < c → r < c → ¬l ≤ r → sideDecision (some l) (some r) c = "turn left") ∧
    (∀ l r c : ℚ, l < c → ¬r < c → sideDecision (some l) (some r) c = "turn right") ∧
    (∀ l r c : ℚ, ¬l < c → r < c → sideDecision (some l) (some r) c = "turn left") ∧
    (∀ l c : ℚ, l < c → sideDecision (some l) none c = "turn right") ∧
    (∀ r c : ℚ, r < c → sideDecision none (some r) c = "turn left") ∧
    (∀ l r c : ℚ, ¬l < c → ¬r < c → sideDecision (some l) (some r) c = "proceed") ∧
    (∀ c : ℚ, sideDecision none none c = "proceed") ∧
    (∀ stopT cautionT confT areaF : ℚ, decideNav stopT cautionT confT areaF [] = "proceed") ∧
    decideNav 0.5 1 0 0
      [DetectionInfo.mk "person" "person" 0.9 (some 0.4) "center" (Box.mk 0 0 10 10)] =
      "stop" ∧
    decideNav 0.5 1 0 0
      [DetectionInfo.mk "person" "person" 0.9 (some 0.4) "left" (Box.mk 0 0 10 10)] =
      "turn right" := by
  have heligex : eligible 0 0 (DetectionInfo.mk "person" "person" 0.9 (some 0.4) "center"
      (Box.mk 0 0 10 10)) = true := by
    simp only [eligible, bboxArea]
    norm_num [abs_of_nonneg]
  have heligex2 : eligible 0 0 (DetectionInfo.mk "person" "person" 0.9 (some 0.4) "left"
      (Box.mk 0 0 10 10)) = true := by
    simp only [eligible, bboxArea]
    norm_num [abs_of_nonneg]
  refine ⟨?_, ?_, ?_, ?_, ?_, ?_, ?_, ?_, ?_, ?_, fun c => rfl, fun _ _ _ _ => rfl, ?_, ?_⟩
  · intro stopT cautionT confT areaF dets d q hd helig hpos hq hlt
    obtain ⟨m, hm, hle⟩ := bucketMin_some_of_mem (dets.filter (eligible confT areaF))
      "center" d q (List.mem_filter.mpr ⟨hd, helig⟩) hpos hq
    rw [decideNav_some stopT cautionT confT areaF dets m hm,
      if_pos (lt_of_le_of_lt hle hlt)]
  · intro stopT cautionT confT areaF dets d q hall hd helig hpos hq hlt
    obtain ⟨m, hm, hle⟩ := bucketMin_some_of_mem (dets.filter (eligible confT areaF))
      "center" d q (List.mem_filter.mpr ⟨hd, helig⟩) hpos hq
    have hns : ¬m < stopT := by
      obtain ⟨d0, hd0, hpos0, hdist0⟩ := bucketMin_mem _ _ _ hm
      have hd0' := List.mem_filter.mp hd0
      exact hall d0 hd0'.1 hd0'.2 hpos0 m hdist0
    rw [decideNav_some stopT cautionT confT areaF dets m hm, if_neg hns,
      if_pos (lt_of_le_of_lt hle hlt)]
  · intro stopT cautionT confT areaF dets hsc hall
    cases hbm : bucketMin (dets.filter (eligible confT areaF)) "center" with
    | none => exact decideNav_none stopT cautionT confT areaF dets hbm
    | some m =>
        obtain ⟨d0, hd0, hpos0, hdist0⟩ := bucketMin_mem _ _ _ hbm
        have hd0' := List.mem_filter.mp hd0
        have hnc : ¬m < cautionT := hall d0 hd0'.1 hd0'.2 hpos0 m hdist0
        have hns : ¬m < stopT := fun h => hnc (lt_of_lt_of_le h hsc)
        rw [decideNav_some stopT cautionT confT areaF dets m hbm, if_neg hns, if_neg hnc]
  · intro l r c h1 h2 h3
    show (if l < c then (if r < c then (if l ≤ r then "turn right" else "turn left")
      else "turn right") else if r < c then "turn left" else "proceed") = "turn right"
    rw [if_pos h1, if_pos h2, if_pos h3]
  · intro l r c h1 h2 h3
    show (if l < c then (if r < c then (if l ≤ r then "turn right" else "turn left")
      else "turn right") else if r < c then "turn left" else "proceed") = "turn left"
    rw [if_pos h1, if_pos h2, if_neg h3]
  · intro l r c h1 h2
    show (if l < c then (if r < c then (if l ≤ r then "turn right" else "turn left")
      else "turn right") else if r < c then "turn left" else "proceed") = "turn right"
    rw [if_pos h1, if_neg h2]
  · intro l r c h1 h2
    show (if l < c then (if r < c then (if l ≤ r then "turn right" else "turn left")
      else "turn right") else if r < c then "turn left" else "proceed") = "turn left"
    rw [if_neg h1, if_pos h2]
  · intro l c h1
    show (if l < c then "turn right" else "proceed") = "turn right"
    rw [if_pos h1]
  · intro r c h1
    show (if r < c then "turn left" else "proceed") = "turn left"
    rw [if_pos h1]
  · intro l r c h1 h2
    show (if l < c then (if r < c then (if l ≤ r then "turn right" else "turn left")
      else "turn right") else if r < c then "turn left" else "proceed") = "proceed"
    rw [if_neg h1, if_neg h2]
  · have helig : [DetectionInfo.mk "person" "person" 0.9 (some 0.4) "center"
        (Box.mk 0 0 10 10)].filter (eligible 0 0) =
        [DetectionInfo.mk "person" "person" 0.9 (some 0.4) "center" (Box.mk 0 0 10 10)] := by
      rw [List.filter_cons_of_pos heligex]
      rfl
    have hbm : bucketMin ([DetectionInfo.mk "person" "person" 0.9 (some 0.4) "center"
        (Box.mk 0 0 10 10)].filter (eligible 0 0)) "center" = some 0.4 := by
      rw [helig]
      rfl
    rw [decideNav_some 0.5 1 0 0 _ 0.4 hbm, if_pos (by norm_num : (0.4 : ℚ) < 0.5)]
  · have helig : [DetectionInfo.mk "person" "person" 0.9 (some 0.4) "left"
        (Box.mk 0 0 10 10)].filter (eligible 0 0) =
        [DetectionInfo.mk "person" "person" 0.9 (some 0.4) "left" (Box.mk 0 0 10 10)] := by
      rw [List.filter_cons_of_pos heligex2]
      rfl
    have hbm : bucketMin ([DetectionInfo.mk "person" "person" 0.9 (some 0.4) "left"
        (Box.mk 0 0 10 10)].filter (eligible 0 0)) "center" = none := by
      rw [helig]
      rfl
    rw [decideNav_none 0.5 1 0 0 _ hbm, helig]
    rw [show bucketMin [DetectionInfo.mk "person" "person" 0.9 (some 0.4) "left"
      (Box.mk 0 0 10 10)] "left" = some 0.4 from rfl]
    rw [show bucketMin [DetectionInfo.mk "person" "person" 0.9 (some 0.4) "left"
      (Box.mk 0 0 10 10)] "right" = none from rfl]
    show (if (0.4 : ℚ) < 1 then "turn right" else "proceed") = "turn right"
    rw [if_pos (by norm_num : (0.4 : ℚ) < 1)]

theorem C2_decision_policy_witness :
    decideNav 1 2 0 0
      [DetectionInfo.mk "obstacle" "obstacle" 1 (some 0) "center" (Box.mk 0 0 1 1)] =
      "stop" :=
  C2_decision_policy.1 1 2 0 0 _ _ 0 (List.mem_singleton_self _)
    (by simp [eligible, bboxArea]) rfl rfl zero_lt_one
